import Mathlib

/-!
Shallow embedding of the `patch` HTTP client library (jakewright/patch):
request validation and body preparation (request.go), response body
buffering and decode dispatch (response.go), the send pipeline and status
validation (client.go), and the asynchronous Future (future.go).

External collaborators (the net/http transport, net/url parsing, concrete
encoders/decoders) are modelled abstractly, as the spec prescribes: they
appear as function-valued parameters or fields.
-/

namespace Patch

/-- A byte of a body stream. -/
abbrev Byte := Nat

/-- Error kinds returned by the library. Modelled from the spec: the file
errors.go (InvalidMethodError, BadStatusError, and the other typed errors)
is not among the provided sources, so the taxonomy of section 7 of the spec
is used: request-validation, URL-parse, configuration (missing encoder),
encode, request-construction, transport, status-validation, body-read and
decode errors. Opaque collaborator errors carry a numeric code. -/
inductive Err where
  | invalidMethod (m : String)
  | urlParse (s : String)
  | noEncoder
  | encode (n : Nat)
  | newRequestFailed (s : String)
  | transport (n : Nat)
  | badStatus (code : Int)
  | readBody (n : Nat)
  | decode (n : Nat)
  deriving DecidableEq, Repr

/-- http.Header, simplified to an association list from key to values. -/
abbrev Headers := List (String × List String)

/-- http.Header.Get: the first value stored under the key, or "". -/
def hdrGet (h : Headers) (k : String) : String :=
  match h.find? (fun p => p.1 == k) with
  | some (_, v :: _) => v
  | _ => ""

/-- http.Header.Set: replace the values stored under the key. -/
def hdrSet (h : Headers) (k v : String) : Headers :=
  (k, [v]) :: h.filter (fun p => p.1 != k)

/-- The body of an http.Response (response.go). A `stream` is the live
transport stream: the bytes it will deliver, then an optional read error
reported after them. A `buf` is the in-memory `bufCloser` replay wrapper
that replaces the stream on first full read; its Close is a no-op. -/
inductive Body where
  | stream (data : List Byte) (readErr : Option Nat)
  | buf (data : List Byte)
  deriving DecidableEq, Repr

/-- Model of *http.Response as the library reads it: status code, headers
and body. `closedCount` instruments the number of Close calls made on the
original transport stream, to state resource-release claims. -/
structure HttpResponse where
  statusCode : Int
  headers : Headers
  body : Body
  closedCount : Nat
  deriving DecidableEq, Repr

/-- patch.Response wraps *http.Response; the embedded pointer can be nil
(client.go builds `&Response{Response: rsp}` from whatever `Do` returned).
The body/decode methods below are stated on `HttpResponse`, the non-nil
embedded response through which Go promotes them. -/
structure Response where
  response : Option HttpResponse
  deriving DecidableEq, Repr

/-- Response.BodyBytes (response.go). If the body is already the bufCloser,
return its bytes with no error and no further effect. Otherwise close the
original stream (the deferred `rc.Close()`), tee every byte read into a
fresh buffer, replace the body with that buffer, and return the bytes read
together with any read error. Returns ((bytes, error), updated response). -/
def HttpResponse.BodyBytes (r : HttpResponse) : (List Byte × Option Err) × HttpResponse :=
  match r.body with
  | Body.buf data => ((data, none), r)
  | Body.stream data readErr =>
      ((data, readErr.map Err.readBody),
       { r with body := Body.buf data, closedCount := r.closedCount + 1 })

/-- A DecodeHook (response.go): maps a status code to a decode target or to
nil ("skip"). -/
def DecodeHook (α : Type) : Type := Int → Option α

/-- On2xx (response.go): the target for statuses in 200..299, else nil. -/
def On2xx (v : α) : DecodeHook α := fun status =>
  if 200 ≤ status ∧ status < 300 then some v else none

/-- On4xx (response.go): the target for statuses in 400..499, else nil. -/
def On4xx (v : α) : DecodeHook α := fun status =>
  if 400 ≤ status ∧ status < 500 then some v else none

/-- On5xx (response.go): the target for statuses in 500..599, else nil. -/
def On5xx (v : α) : DecodeHook α := fun status =>
  if 500 ≤ status ∧ status < 600 then some v else none

/-- OnNon2xx (response.go): nil for statuses in 200..299, else the target. -/
def OnNon2xx (v : α) : DecodeHook α := fun status =>
  if 200 ≤ status ∧ status < 300 then none else some v

/-- OnStatus (response.go): the target exactly when the status matches. -/
def OnStatus (status : Int) (v : α) : DecodeHook α := fun s =>
  if status = s then some v else none

/-- An argument passed to DecodeUsing: in Go an `interface\x7b\x7d` that is a
literal nil, a plain decode target, or a DecodeHook. -/
inductive Target (α : Type) where
  | nilTarget : Target α
  | value : α → Target α
  | hook : DecodeHook α → Target α

/-- The receiver DecodeUsing actually decodes into for one argument: a hook
is first evaluated at the status code (the `switch` in response.go); a
resulting or literal nil means skip. -/
def resolveTarget (status : Int) : Target α → Option α
  | Target.nilTarget => none
  | Target.value v => some v
  | Target.hook f => f status

/-- A Decoder (decoding collaborator): given body bytes and a target,
populate the target or fail with an opaque error code. -/
abbrev Decoder (α : Type) := List Byte → α → Option Nat

/-- The loop of DecodeUsing (response.go): resolve each target in order,
skip nils, decode into each resolved target, stop at the first decode
error. Instrumented with the list of receivers actually handed to
dec.Decode, in order, so that non-attempt claims are statable. -/
def decodeLoop (dec : Decoder α) (status : Int) (body : List Byte) :
    List (Target α) → Option Err × List α
  | [] => (none, [])
  | t :: ts =>
    match resolveTarget status t with
    | none => decodeLoop dec status body ts
    | some v =>
      match dec body v with
      | some e => (some (Err.decode e), [v])
      | none =>
        let rest := decodeLoop dec status body ts
        (rest.1, v :: rest.2)

/-- Response.DecodeUsing (response.go): read the full body via BodyBytes,
failing on a read error, then run the decode loop over the targets against
the buffered bytes and the response's status code. Returns ((error, decode
attempts), updated response). -/
def HttpResponse.DecodeUsing (r : HttpResponse) (dec : Decoder α)
    (targets : List (Target α)) : (Option Err × List α) × HttpResponse :=
  match r.BodyBytes with
  | ((_, some e), r2) => ((some e, []), r2)
  | ((body, none), r2) => (decodeLoop dec r.statusCode body targets, r2)

/-- An Encoder (encoding collaborator, request.go / options.go): declares a
content type and turns a body value into a byte stream or fails with an
opaque error code. -/
structure Encoder (β : Type) where
  contentType : String
  encode : β → Except Nat (List Byte)

/-- patch.Request (request.go): context token, method, URL, optional
headers, optional body and optional per-request encoder override. The
context has no observable effect in this pure model. -/
structure Request (β : Type) where
  ctx : Option Unit
  method : String
  url : String
  headers : Option Headers
  body : Option β
  encoder : Option (Encoder β)

/-- validMethod (request.go): the switch over the nine net/http method
constants. -/
def validMethod (m : String) : Bool :=
  m == "GET" || m == "HEAD" || m == "POST" || m == "PUT" || m == "PATCH" ||
  m == "DELETE" || m == "CONNECT" || m == "OPTIONS" || m == "TRACE"

/-- Request.validate (request.go): fails with an InvalidMethod error when
the method is not recognized, else succeeds. -/
def Request.validate (r : Request β) : Option Err :=
  if !(validMethod r.method) then some (Err.invalidMethod r.method) else none

/-- Request.prepareBody (request.go): nil body yields no stream and empty
content type; otherwise the per-request encoder, else the default, else a
configuration error; encoder failures propagate; on success the encoded
stream is paired with the chosen encoder's content type. -/
def Request.prepareBody (r : Request β) (defaultEncoder : Option (Encoder β)) :
    Except Err (Option (List Byte) × String) :=
  match r.body with
  | none => Except.ok (none, "")
  | some b =>
    match (match r.encoder with
           | some enc => some enc
           | none => defaultEncoder) with
    | none => Except.error Err.noEncoder
    | some enc =>
      match enc.encode b with
      | Except.error e => Except.error (Err.encode e)
      | Except.ok bytes => Except.ok (some bytes, enc.contentType)

/-- An abstract parsed URL (net/url collaborator). -/
structure URL where
  raw : String

/-- The net/url collaborator functions the send pipeline calls: url.Parse
(failing on a malformed string) and base.ResolveReference(ref).String(). -/
structure Env where
  parseURL : String → Except String URL
  resolveReference : URL → URL → String

/-- The outgoing *http.Request handed to the transport. -/
structure HttpRequest where
  method : String
  url : String
  body : Option (List Byte)
  headers : Headers

/-- Models http.NewRequest: parses the URL, failing on a malformed one, and
builds the outgoing request with empty headers. -/
def newRequest (env : Env) (m path : String) (b : Option (List Byte)) :
    Except String HttpRequest :=
  match env.parseURL path with
  | Except.error s => Except.error s
  | Except.ok _ => Except.ok { method := m, url := path, body := b, headers := [] }

/-- The URL-resolution step of Client.send (client.go): with no base URL the
request URL is used verbatim; otherwise base and request URLs are parsed
(failing on either parse error) and the reference is resolved against the
base. -/
def resolvePath (env : Env) (baseURL reqURL : String) : Except Err String :=
  if baseURL = "" then Except.ok reqURL
  else
    match env.parseURL baseURL with
    | Except.error s => Except.error (Err.urlParse s)
    | Except.ok base =>
      match env.parseURL reqURL with
      | Except.error s => Except.error (Err.urlParse s)
      | Except.ok ref => Except.ok (env.resolveReference base ref)

/-- patch.Client (client.go): base URL, default encoder, status validator
(nil accepts every status) and the transport capability (Doer). The Doer
returns a raw response or a transport-level error, per its contract. -/
structure Client (β : Type) where
  baseURL : String
  defaultEncoder : Option (Encoder β)
  statusValidator : Option (Int → Bool)
  baseClient : HttpRequest → Except Nat HttpResponse

/-- Client.Do (client.go): dispatch via the base client; a transport error
aborts with no response; otherwise a non-nil status validator rejecting the
status yields the response together with a BadStatus error; else the
response with no error. -/
def Client.Do (c : Client β) (req : HttpRequest) : Option HttpResponse × Option Err :=
  match c.baseClient req with
  | Except.error e => (none, some (Err.transport e))
  | Except.ok rsp =>
    match c.statusValidator with
    | some f =>
      if f rsp.statusCode then (some rsp, none)
      else (some rsp, some (Err.badStatus rsp.statusCode))
    | none => (some rsp, none)

/-- Client.send (client.go): validate, resolve the URL, prepare the body,
build the outgoing request (explicit request headers replace the built
ones; the encoder's content type is set only when the caller set none),
dispatch via Client.Do, and wrap whatever Do returned — note the final
`&Response\x7bResponse: rsp\x7d` wraps even a nil raw response. -/
def Client.send (c : Client β) (env : Env) (request : Request β) :
    Option Response × Option Err :=
  match request.validate with
  | some e => (none, some e)
  | none =>
    match resolvePath env c.baseURL request.url with
    | Except.error e => (none, some e)
    | Except.ok path =>
      match request.prepareBody c.defaultEncoder with
      | Except.error e => (none, some e)
      | Except.ok (body, contentType) =>
        match newRequest env request.method path body with
        | Except.error s => (none, some (Err.newRequestFailed s))
        | Except.ok req0 =>
          let req1 := match request.headers with
            | some hs => { req0 with headers := hs }
            | none => req0
          let req2 :=
            if contentType ≠ "" ∧ hdrGet req1.headers "Content-Type" = "" then
              { req1 with headers := hdrSet req1.headers "Content-Type" contentType }
            else req1
          let dr := c.Do req2
          (some { response := dr.1 }, dr.2)

/-- patch.Future (future.go): a one-shot completion flag plus the two
write-once result fields the background goroutine fills before closing the
done channel. -/
structure Future where
  done : Bool
  response : Option Response
  err : Option Err

/-- Future.Response (future.go): receive from the done channel — modelled
as requiring completion — then return the stored pair. -/
def Future.Response (f : Future) (_h : f.done = true) : Option Response × Option Err :=
  (f.response, f.err)

/-- Client.Send (client.go) starts `send` in a goroutine and returns the
Future at once; this is that Future once the goroutine has finished: both
result fields written from send's result and the done channel closed. -/
def Client.SendCompleted (c : Client β) (env : Env) (request : Request β) : Future :=
  let p := c.send env request
  { done := true, response := p.1, err := p.2 }

/-- The nine request methods request.go's validMethod recognizes (the
net/http method constants). -/
def recognizedMethods : List String :=
  ["GET", "HEAD", "POST", "PUT", "PATCH", "DELETE", "CONNECT", "OPTIONS", "TRACE"]

/-- A decode argument that contributes no error when DecodeUsing processes
it: it resolves to no receiver, or the decoder accepts the receiver. -/
def TargetOk (dec : Decoder α) (status : Int) (body : List Byte)
    (t : Target α) : Prop :=
  match resolveTarget status t with
  | none => True
  | some v => dec body v = none

/-- A net/url collaborator for concrete instantiations: every string parses
and a reference resolves to itself. -/
def idEnv : Env :=
  { parseURL := fun s => Except.ok { raw := s },
    resolveReference := fun _ ref => ref.raw }

/-- A concrete bodyless GET request for concrete instantiations. -/
def getRequest : Request Unit :=
  { ctx := none, method := "GET", url := "u", headers := none,
    body := none, encoder := none }

/-- A concrete 500 response with an already-buffered empty body. -/
def rsp500 : HttpResponse :=
  { statusCode := 500, headers := [], body := Body.buf [], closedCount := 0 }

/-- The decode loop over `pre ++ rest` when every argument of `pre` decodes
cleanly: the error is whatever `rest` produces, and the attempts are the
receivers of `pre` followed by the attempts of `rest`. -/
theorem decodeLoop_append_of_ok (dec : Decoder α) (status : Int)
    (body : List Byte) (pre rest : List (Target α))
    (h : ∀ t ∈ pre, TargetOk dec status body t) :
    decodeLoop dec status body (pre ++ rest) =
      ((decodeLoop dec status body rest).1,
       pre.filterMap (resolveTarget status) ++ (decodeLoop dec status body rest).2) := by
  induction pre with
  | nil => simp
  | cons t ts ih =>
    have ht : TargetOk dec status body t := h t (by simp)
    have hts : ∀ t2 ∈ ts, TargetOk dec status body t2 :=
      fun t2 h2 => h t2 (by simp [h2])
    cases hr : resolveTarget status t with
    | none =>
      simp only [List.cons_append, decodeLoop, hr, List.filterMap_cons]
      exact ih hts
    | some v =>
      have hdec : dec body v = none := by
        simpa [TargetOk, hr] using ht
      simp [decodeLoop, hr, hdec, List.filterMap_cons, ih hts]

/-- Removing a decode argument that resolves to no receiver does not change
the decode loop's result. -/
theorem decodeLoop_skip_middle (dec : Decoder α) (status : Int)
    (body : List Byte) (pre post : List (Target α)) (t : Target α)
    (hr : resolveTarget status t = none) :
    decodeLoop dec status body (pre ++ t :: post) =
      decodeLoop dec status body (pre ++ post) := by
  induction pre with
  | nil => simp [decodeLoop, hr]
  | cons u us ih =>
    cases hu : resolveTarget status u with
    | none => simp only [List.cons_append, decodeLoop, hu]; exact ih
    | some v =>
      cases hdec : dec body v with
      | none => simp [decodeLoop, hu, hdec, ih]
      | some e => simp [decodeLoop, hu, hdec]

/-- The decode loop over nothing but nil arguments does nothing. -/
theorem decodeLoop_replicate_nilTarget (dec : Decoder α) (status : Int)
    (body : List Byte) (n : Nat) :
    decodeLoop dec status body (List.replicate n (Target.nilTarget : Target α)) =
      (none, []) := by
  induction n with
  | zero => simp [decodeLoop]
  | succ n ih => simp [List.replicate_succ, decodeLoop, resolveTarget, ih]

/-- C2: for a Response whose transport stream delivers `data` and whose
first BodyBytes succeeds, that first read returns the full bytes, replaces
the body with the in-memory buffer wrapper and closes the transport stream
exactly once; a second BodyBytes returns the identical bytes with no
further close and no further change. -/
theorem bodyBytes_read_twice (r : HttpResponse) (data : List Byte)
    (hb : r.body = Body.stream data none) (hc : r.closedCount = 0) :
    r.BodyBytes.1 = (data, none) ∧
    r.BodyBytes.2.body = Body.buf data ∧
    r.BodyBytes.2.closedCount = 1 ∧
    r.BodyBytes.2.BodyBytes.1 = (data, none) ∧
    r.BodyBytes.2.BodyBytes.2 = r.BodyBytes.2 := by
  simp [HttpResponse.BodyBytes, hb, hc]

/-- Witness for C2 at a concrete two-byte response. -/
theorem bodyBytes_read_twice_witness :
    ({ statusCode := 200, headers := [], body := Body.stream [1, 2] none,
       closedCount := 0 } : HttpResponse).BodyBytes.2.BodyBytes.1 =
      ([1, 2], none) :=
  (bodyBytes_read_twice _ [1, 2] rfl rfl).2.2.2.1

/-- C6: validate succeeds exactly on the nine recognized verbs, fails with
the InvalidMethod kind on any other method string, and depends on no other
Request field. -/
theorem validate_method_spec (β : Type) (r : Request β) :
    (r.validate = none ↔ r.method ∈ recognizedMethods) ∧
    (r.method ∉ recognizedMethods →
      r.validate = some (Err.invalidMethod r.method)) ∧
    (∀ r2 : Request β, r2.method = r.method → r2.validate = r.validate) := by
  have hvm : validMethod r.method = true ↔ r.method ∈ recognizedMethods := by
    simp [validMethod, recognizedMethods]
    tauto
  refine ⟨?_, ?_, ?_⟩
  · rw [← hvm, Request.validate]
    by_cases h : validMethod r.method <;> simp [h]
  · intro hnot
    rw [← hvm] at hnot
    have h : validMethod r.method = false := by simpa using hnot
    simp [Request.validate, h]
  · intro r2 h2
    simp only [Request.validate, h2]

/-- C7: prepareBody returns no stream and empty content type on a nil body;
otherwise it selects the per-request encoder, else the default, fails with
the configuration error when neither is set, propagates encoder failures,
and on success pairs the encoded stream with the chosen encoder's declared
content type. -/
theorem prepareBody_spec (β : Type) (r : Request β) (d : Option (Encoder β)) :
    (r.body = none → r.prepareBody d = Except.ok (none, "")) ∧
    (∀ b, r.body = some b →
      ((r.encoder = none → d = none →
         r.prepareBody d = Except.error Err.noEncoder) ∧
       (∀ enc, (r.encoder = some enc ∨ (r.encoder = none ∧ d = some enc)) →
         ((∀ e, enc.encode b = Except.error e →
            r.prepareBody d = Except.error (Err.encode e)) ∧
          (∀ bs, enc.encode b = Except.ok bs →
            r.prepareBody d = Except.ok (some bs, enc.contentType)))))) := by
  refine ⟨fun h => by simp [Request.prepareBody, h], ?_⟩
  intro b hb
  refine ⟨fun he hd => by simp [Request.prepareBody, hb, he, hd], ?_⟩
  intro enc henc
  have hsel : (match r.encoder with
               | some enc2 => some enc2
               | none => d) = some enc := by
    rcases henc with h | ⟨h1, h2⟩
    · simp [h]
    · simp [h1, h2]
  exact ⟨fun e he => by simp [Request.prepareBody, hb, hsel, he],
         fun bs hbs => by simp [Request.prepareBody, hb, hsel, hbs]⟩

/-- C8: each hook constructor yields its target exactly on its status range
(2xx, 4xx, 5xx, non-2xx, exact match), yields nil otherwise — in particular
`On2xx v` skips at 404 and fires at 204 — and evaluation only ever yields
the target or nil, never an error. -/
theorem hook_constructors_spec (α : Type) (v : α) (s n : Int) :
    (On2xx v s = some v ↔ 200 ≤ s ∧ s < 300) ∧
    (On2xx v s = none ↔ ¬(200 ≤ s ∧ s < 300)) ∧
    (On4xx v s = some v ↔ 400 ≤ s ∧ s < 500) ∧
    (On5xx v s = some v ↔ 500 ≤ s ∧ s < 600) ∧
    (OnNon2xx v s = some v ↔ ¬(200 ≤ s ∧ s < 300)) ∧
    (OnNon2xx v s = none ↔ 200 ≤ s ∧ s < 300) ∧
    (OnStatus n v s = some v ↔ n = s) ∧
    On2xx v 404 = none ∧ On2xx v 204 = some v ∧
    (On2xx v s = some v ∨ On2xx v s = none) ∧
    (On4xx v s = some v ∨ On4xx v s = none) ∧
    (On5xx v s = some v ∨ On5xx v s = none) ∧
    (OnNon2xx v s = some v ∨ OnNon2xx v s = none) ∧
    (OnStatus n v s = some v ∨ OnStatus n v s = none) := by
  unfold On2xx On4xx On5xx OnNon2xx OnStatus
  refine ⟨?_, ?_, ?_, ?_, ?_, ?_, ?_, ?_, ?_, ?_, ?_, ?_, ?_, ?_⟩ <;>
    (split_ifs with h <;> simp_all)

/-- C9: once a Future has completed, every Response() call returns the same
stored (response, error) pair, and for the Future of a completed background
send that pair is exactly what Client.send produced. -/
theorem future_response_deterministic (f : Future) (h1 h2 : f.done = true)
    (β : Type) (c : Client β) (env : Env) (request : Request β)
    (h3 : (c.SendCompleted env request).done = true) :
    f.Response h1 = f.Response h2 ∧
    f.Response h1 = (f.response, f.err) ∧
    (c.SendCompleted env request).Response h3 = c.send env request := by
  refine ⟨rfl, rfl, ?_⟩
  simp [Client.SendCompleted, Future.Response]

/-- Witness for C9 at a trivially completed Future and a concrete client. -/
theorem future_response_deterministic_witness :
    ({ done := true, response := none, err := none } : Future).Response rfl =
      (none, none) :=
  (future_response_deterministic { done := true, response := none, err := none }
    rfl rfl Unit
    { baseURL := "", defaultEncoder := none, statusValidator := none,
      baseClient := fun _ => Except.error 0 }
    { parseURL := fun s => Except.ok { raw := s },
      resolveReference := fun _ ref => ref.raw }
    { ctx := none, method := "GET", url := "u", headers := none,
      body := none, encoder := none }
    rfl).2.1

/-- C3: when the body reads cleanly, every argument before position k
decodes cleanly and the argument at position k resolves to a receiver the
decoder rejects, DecodeUsing returns exactly that decode error, and the
result — decode attempts included — is the same whatever follows position
k: the later targets are never attempted. -/
theorem decodeUsing_error_short_circuits (r : HttpResponse) (dec : Decoder α)
    (pre post : List (Target α)) (t : Target α) (v : α) (e : Nat)
    (data : List Byte)
    (hbb : r.BodyBytes.1 = (data, none))
    (_hpre : pre ≠ [])
    (hok : ∀ t2 ∈ pre, TargetOk dec r.statusCode data t2)
    (hres : resolveTarget r.statusCode t = some v)
    (hdec : dec data v = some e) :
    (r.DecodeUsing dec (pre ++ t :: post)).1.1 = some (Err.decode e) ∧
    r.DecodeUsing dec (pre ++ t :: post) = r.DecodeUsing dec (pre ++ [t]) := by
  have h2 : r.BodyBytes = ((data, none), r.BodyBytes.2) := by
    rw [← hbb]
  have ha := decodeLoop_append_of_ok dec r.statusCode data pre (t :: post) hok
  have hb2 := decodeLoop_append_of_ok dec r.statusCode data pre [t] hok
  rw [show decodeLoop dec r.statusCode data (t :: post) =
        (some (Err.decode e), [v]) by simp [decodeLoop, hres, hdec]] at ha
  rw [show decodeLoop dec r.statusCode data [t] =
        (some (Err.decode e), [v]) by simp [decodeLoop, hres, hdec]] at hb2
  unfold HttpResponse.DecodeUsing
  rw [h2]
  simp [ha, hb2]

/-- Witness for C3: the decoder accepts receiver 1 and rejects receiver 2
with error 5; DecodeUsing over [1, 2, 3] reports decode error 5. -/
theorem decodeUsing_error_short_circuits_witness :
    (({ statusCode := 200, headers := [], body := Body.buf [9],
        closedCount := 0 } : HttpResponse).DecodeUsing
        (fun _ w => if w == 2 then some 5 else none)
        ([Target.value 1] ++ Target.value 2 :: [Target.value 3])).1.1 =
      some (Err.decode 5) :=
  (decodeUsing_error_short_circuits
    { statusCode := 200, headers := [], body := Body.buf [9], closedCount := 0 }
    (fun _ w => if w == 2 then some 5 else none)
    [Target.value 1] [Target.value 3] (Target.value 2) 2 5 [9]
    rfl (by simp)
    (by
      intro t2 ht2
      have h : t2 = Target.value 1 := by simpa using ht2
      subst h
      simp [TargetOk, resolveTarget])
    rfl (by decide)).1

/-- C4: an argument that is a DecodeHook whose predicate does not match the
response's status resolves to no receiver, so DecodeUsing behaves exactly —
error and decode attempts alike — as if the argument were absent. -/
theorem decodeUsing_hook_no_match_skips (r : HttpResponse) (dec : Decoder α)
    (pre post : List (Target α)) (f : DecodeHook α)
    (hf : f r.statusCode = none) :
    r.DecodeUsing dec (pre ++ Target.hook f :: post) =
      r.DecodeUsing dec (pre ++ post) := by
  have hr : resolveTarget r.statusCode (Target.hook f) = none := hf
  rcases h : r.BodyBytes with ⟨⟨bs, e?⟩, r2⟩
  cases e? with
  | some e => simp [HttpResponse.DecodeUsing, h]
  | none => simp [HttpResponse.DecodeUsing, h, decodeLoop_skip_middle _ _ _ _ _ _ hr]

/-- Witness for C4: an On2xx hook against a 404 response is skipped. -/
theorem decodeUsing_hook_no_match_skips_witness :
    ({ statusCode := 404, headers := [], body := Body.buf [1],
       closedCount := 0 } : HttpResponse).DecodeUsing
        (fun _ (_ : Nat) => none)
        ([] ++ Target.hook (On2xx 5) :: [Target.value 7]) =
      ({ statusCode := 404, headers := [], body := Body.buf [1],
         closedCount := 0 } : HttpResponse).DecodeUsing
        (fun _ (_ : Nat) => none) ([] ++ [Target.value 7]) :=
  decodeUsing_hook_no_match_skips _ _ [] [Target.value 7] (On2xx 5) (by decide)

/-- C10: a literal-nil argument is skipped with no error exactly like a
hook resolving to nil; DecodeUsing over only nil arguments equals
DecodeUsing over none; and with no arguments it still performs the full
body read — returning the buffered response — and errors exactly when
BodyBytes does, attempting no decode. -/
theorem decodeUsing_nil_and_empty (r : HttpResponse) (dec : Decoder α)
    (pre post : List (Target α)) (n : Nat) :
    (r.DecodeUsing dec (pre ++ Target.nilTarget :: post) =
      r.DecodeUsing dec (pre ++ post)) ∧
    (r.DecodeUsing dec (List.replicate n Target.nilTarget) =
      r.DecodeUsing dec []) ∧
    (r.DecodeUsing dec ([] : List (Target α))).2 = r.BodyBytes.2 ∧
    (r.DecodeUsing dec ([] : List (Target α))).1.1 = r.BodyBytes.1.2 ∧
    (r.DecodeUsing dec ([] : List (Target α))).1.2 = [] := by
  have hr : resolveTarget r.statusCode (Target.nilTarget : Target α) = none := rfl
  rcases h : r.BodyBytes with ⟨⟨bs, e?⟩, r2⟩
  cases e? with
  | some e => simp [HttpResponse.DecodeUsing, h]
  | none =>
    refine ⟨?_, ?_, ?_, ?_, ?_⟩ <;>
      simp [HttpResponse.DecodeUsing, h, decodeLoop,
        decodeLoop_skip_middle _ _ _ _ _ _ hr, decodeLoop_replicate_nilTarget]

/-- C5: once the pipeline completes a transport round-trip, a non-nil
status validator rejecting the status makes send return the BadStatus error
for that status together with a Response whose embedded raw response is the
received one (status code inspectable); a nil validator accepts every
status and send returns that Response with no error. -/
theorem send_status_validation (β : Type) (c : Client β) (env : Env)
    (request : Request β) (path : String) (u : URL)
    (body : Option (List Byte)) (contentType : String) (rsp : HttpResponse)
    (hv : request.validate = none)
    (hp : resolvePath env c.baseURL request.url = Except.ok path)
    (hu : env.parseURL path = Except.ok u)
    (hb : request.prepareBody c.defaultEncoder = Except.ok (body, contentType))
    (ht : ∀ q, c.baseClient q = Except.ok rsp) :
    (∀ f, c.statusValidator = some f → f rsp.statusCode = false →
      c.send env request =
        (some { response := some rsp }, some (Err.badStatus rsp.statusCode))) ∧
    (c.statusValidator = none →
      c.send env request = (some { response := some rsp }, none)) := by
  have hnr : newRequest env request.method path body = Except.ok
      { method := request.method, url := path, body := body, headers := [] } := by
    simp [newRequest, hu]
  constructor
  · intro f hf hff
    simp [Client.send, hv, hp, hb, hnr, Client.Do, ht, hf, hff]
  · intro hf
    simp [Client.send, hv, hp, hb, hnr, Client.Do, ht, hf]

/-- Witness for C5: a validator rejecting everything turns a completed 500
round-trip into a BadStatus error beside the non-nil wrapped response. -/
theorem send_status_validation_witness :
    ({ baseURL := "", defaultEncoder := none,
       statusValidator := some (fun _ => false),
       baseClient := fun _ => Except.ok rsp500 } : Client Unit).send
      idEnv getRequest =
    (some { response := some rsp500 }, some (Err.badStatus 500)) :=
  (send_status_validation Unit
    { baseURL := "", defaultEncoder := none,
      statusValidator := some (fun _ => false),
      baseClient := fun _ => Except.ok rsp500 }
    idEnv getRequest "u" { raw := "u" } none "" rsp500
    rfl rfl rfl rfl (fun _ => rfl)).1 (fun _ => false) rfl rfl

/-- C1 as amended: when the transport returns a transport-level error with
every earlier stage succeeding, send aborts with that error, but the
Response component is not nil: it is a non-nil wrapper whose embedded raw
response is nil, and Future.Response hands the per-verb helpers that same
pair. -/
theorem send_transport_error_wraps_nil (β : Type) (c : Client β) (env : Env)
    (request : Request β) (path : String) (u : URL)
    (body : Option (List Byte)) (contentType : String) (e : Nat)
    (hv : request.validate = none)
    (hp : resolvePath env c.baseURL request.url = Except.ok path)
    (hu : env.parseURL path = Except.ok u)
    (hb : request.prepareBody c.defaultEncoder = Except.ok (body, contentType))
    (ht : ∀ q, c.baseClient q = Except.error e) :
    c.send env request = (some { response := none }, some (Err.transport e)) ∧
    (some { response := none } : Option Response) ≠ none ∧
    ∀ h : (c.SendCompleted env request).done = true,
      (c.SendCompleted env request).Response h =
        (some { response := none }, some (Err.transport e)) := by
  have hnr : newRequest env request.method path body = Except.ok
      { method := request.method, url := path, body := body, headers := [] } := by
    simp [newRequest, hu]
  have hsend : c.send env request =
      (some { response := none }, some (Err.transport e)) := by
    simp [Client.send, hv, hp, hb, hnr, Client.Do, ht]
  exact ⟨hsend, by simp,
    fun h => by simp [Client.SendCompleted, Future.Response, hsend]⟩

/-- Witness for C1's amended statement at a concrete failing transport. -/
theorem send_transport_error_wraps_nil_witness :
    ({ baseURL := "", defaultEncoder := none, statusValidator := none,
       baseClient := fun _ => Except.error 7 } : Client Unit).send
      idEnv getRequest =
    (some { response := none }, some (Err.transport 7)) :=
  (send_transport_error_wraps_nil Unit
    { baseURL := "", defaultEncoder := none, statusValidator := none,
      baseClient := fun _ => Except.error 7 }
    idEnv getRequest "u" { raw := "u" } none "" 7
    rfl rfl rfl rfl (fun _ => rfl)).1

/-- Counterexample to C1 as stated: for a send whose transport fails with
error 7, the error is the transport error, yet the Response component of
the pair is not nil. -/
theorem send_transport_error_response_not_nil :
    (({ baseURL := "", defaultEncoder := none, statusValidator := none,
        baseClient := fun _ => Except.error 7 } : Client Unit).send
       idEnv getRequest).2 = some (Err.transport 7) ∧
    (({ baseURL := "", defaultEncoder := none, statusValidator := none,
        baseClient := fun _ => Except.error 7 } : Client Unit).send
       idEnv getRequest).1 ≠ none := by
  constructor
  · decide
  · decide

end Patch
